import Mathlib

/-
Verification development for the esbonio Sphinx language server
(lib/esbonio/esbonio/lsp/sphinx.py).

The Python module is shallowly embedded below. Pure helpers become Lean
functions; the stateful server object becomes explicit state passing on a
`SphinxLanguageServer` structure; Python exceptions become `Except` results.
Python dictionaries (which preserve insertion order) are modelled as
association lists with insert-or-replace / insert-or-append helpers.
String operations are implemented over `List Char` so that concrete runs
evaluate inside the kernel; `String.mk`/`String.data` convert at the edges.

External collaborators (the Sphinx application object, the pygls uri
helpers, the logging machinery, and the RstLanguageServer base class whose
source file is not among the sources) are modelled explicitly where the
code under scrutiny depends on them; every such definition carries a
comment saying what it stands for.
-/

/-- Split a character list at every occurrence of the separator, the model of
the Python `str.split(sep)` for a one character separator: for example
splitting `a:b::c` at the colon gives `a`, `b`, the empty piece, and `c`,
and splitting the empty string gives one empty piece. -/
def splitOnChar (sep : Char) : List Char → List (List Char)
  | [] => [[]]
  | c :: cs =>
    let r := splitOnChar sep cs
    if c = sep then [] :: r
    else
      match r with
      | [] => [[c]]
      | g :: gs => (c :: g) :: gs

/-- Decide whether `pre` is a prefix of `s`, character by character. -/
def startsWithL : List Char → List Char → Bool
  | [], _ => true
  | _ :: _, [] => false
  | a :: as, b :: bs => a = b && startsWithL as bs

/-- Decide whether the pattern occurs as a contiguous substring, the model of
the Python `needle in haystack` test for a nonempty needle. -/
def containsSub (needle : List Char) : List Char → Bool
  | [] => startsWithL needle []
  | c :: cs => startsWithL needle (c :: cs) || containsSub needle cs

/-- Decide whether `suf` is a suffix of `s`, the model of `str.endswith`. -/
def endsWithL (suf s : List Char) : Bool :=
  startsWithL suf.reverse s.reverse

/-- Numeric value of a nonempty run of decimal digits; `none` when some
character is not a decimal digit or the run is empty. -/
def digitsVal : List Char → Option Nat
  | [] => none
  | cs => cs.foldl
      (fun acc c =>
        match acc with
        | none => none
        | some n => if c.isDigit then some (n * 10 + (c.toNat - 48)) else none)
      (some 0)

/-- Model of the Python `int(s)` conversion as used on the trailing segment of
a log location: an optional sign followed by decimal digits; `none` models the
`ValueError` raised on anything else. (Surrounding whitespace, underscores and
non-ASCII digits, which Python would also accept, do not occur in locations
and are out of scope of this model.) -/
def pyInt : List Char → Option Int
  | '-' :: cs => (digitsVal cs).map (fun n => -(n : Int))
  | '+' :: cs => (digitsVal cs).map (fun n => (n : Int))
  | cs => (digitsVal cs).map (fun n => (n : Int))

/-- Insert-or-replace on an association list, the model of `d[k] = v` on a
Python dict: an existing key keeps its position, a new key goes to the end. -/
def alistSet {α : Type} (m : List (String × α)) (k : String) (v : α) :
    List (String × α) :=
  match m with
  | [] => [(k, v)]
  | (k1, v1) :: rest =>
    if k1 = k then (k, v) :: rest else (k1, v1) :: alistSet rest k v

/-- Keys of an association list. -/
def alistKeys {α : Type} (m : List (String × α)) : List String :=
  m.map (fun kv => kv.1)

/-- A Python dict key: the module mixes string keys (the literal keys of
DIAGNOSTIC_SEVERITY) and integer lookups (`record.levelno`); in Python a
lookup with a key of a different type simply misses. -/
inductive PyKey : Type
  | str (s : String)
  | int (n : Int)
deriving DecidableEq

/-- Lookup with a default, the model of `dict.get(key, default)`. -/
def pyDictGet {α : Type} (m : List (PyKey × α)) (k : PyKey) (d : α) : α :=
  match m.lookup k with
  | some v => v
  | none => d

/-- A Python exception escaping a handler, as far as the claims need to
distinguish them. -/
inductive PyError : Type
  | attributeError
  | typeError
deriving DecidableEq

/-- Severities of the pygls `DiagnosticSeverity` enumeration. -/
inductive DiagnosticSeverity : Type
  | Error
  | Warning
  | Information
  | Hint
deriving DecidableEq

/-- Message kinds of the pygls `MessageType` enumeration. -/
inductive MessageType : Type
  | Error
  | Warning
  | Info
  | Log
deriving DecidableEq

/-- A pygls `Position` (zero based). Lines are integers because the module
computes `line - 1` with no lower bound. -/
structure Position : Type where
  line : Int
  character : Int
deriving DecidableEq

/-- A pygls `Range`; the field `stop` embeds the Python field `end`, which is
a reserved word in Lean. -/
structure Range : Type where
  start : Position
  stop : Position
deriving DecidableEq

/-- A pygls `Diagnostic`, restricted to the fields the module sets. -/
structure Diagnostic : Type where
  range : Range
  message : String
  severity : DiagnosticSeverity
deriving DecidableEq

/-- A `logging.LogRecord` as the handler consumes it: the logger name, the
numeric level, the message, and the location string that the Sphinx
`WarningLogRecordTranslator` attaches to warning records. -/
structure LogRecord : Type where
  name : String
  levelno : Int
  msg : String
  location : String
deriving DecidableEq

/-- A user facing notification produced through `self.show_message`. -/
structure MessageEntry : Type where
  msg_type : MessageType
  message : String
deriving DecidableEq

/-- Numeric logging levels of the Python `logging` module. -/
def loggingWARNING : Int := 30

/-- Numeric logging level `logging.ERROR`. -/
def loggingERROR : Int := 40

/-- The severity table of the module, verbatim: keyed by the strings
`WARNING` and `ERROR`. -/
def DIAGNOSTIC_SEVERITY : List (PyKey × DiagnosticSeverity) :=
  [(PyKey.str "WARNING", DiagnosticSeverity.Warning),
   (PyKey.str "ERROR", DiagnosticSeverity.Error)]

/-- Embedding of `SphinxLogHandler.get_location`: split the location string on
colons; on Windows rejoin the drive letter with the following segment (the
Python `parts.pop(0)` raises IndexError when there is no such segment, which
the `none` result models); a single remaining segment is parsed as a line
number, with a parse failure silently giving no line; two or more remaining
segments also give no line. The first component of the result is the document
uri, obtained through the pygls `uri.from_fs_path` helper, which is external
and therefore a parameter. -/
def get_location (isWin : Bool) (fromFsPath : String → String)
    (location : String) : Option (String × Option Int) :=
  match splitOnChar ':' location.data with
  | [] => none
  | path0 :: parts0 =>
    let step : Option (List Char × List (List Char)) :=
      if isWin then
        match parts0 with
        | [] => none
        | p :: rest => some (path0 ++ ':' :: p, rest)
      else some (path0, parts0)
    match step with
    | none => none
    | some (path, parts) =>
      let lineno : Option Int :=
        match parts with
        | [seg] => pyInt seg
        | _ => none
      some (fromFsPath (String.mk path), lineno)

/-- Model of the Python truthiness idiom `lineno or 1` on an optional
integer: `none` and `0` both give the default. -/
def pyOrInt (o : Option Int) (d : Int) : Int :=
  match o with
  | some n => if n = 0 then d else n
  | none => d

/-- Insert-or-append on the per document diagnostic mapping, the embedding of
the final `if doc not in self.diagnostics ... else ... append` block of
`SphinxLogHandler.emit`. -/
def diagAppend (m : List (String × List Diagnostic)) (doc : String)
    (d : Diagnostic) : List (String × List Diagnostic) :=
  match m with
  | [] => [(doc, [d])]
  | (k, ds) :: rest =>
    if k = doc then (k, ds ++ [d]) :: rest else (k, ds) :: diagAppend rest doc d

/-- State of a `SphinxLogHandler`. The `translator` flag models the
truthiness of the `WarningLogRecordTranslator` collaborator (an external
Sphinx object; within this model records already carry their normalized
message and location, so its `filter` call is a no-op). The field
`only_once_seen` is the state of the `OnceFilter` collaborator. Modelled from
the spec: `OnceFilter` comes from `sphinx.util.logging` (only an always-pass
fallback for Sphinx 2.x is in the sources); the spec describes it as a report
once per (message, location) filter whose state lives as long as the handler. -/
structure SphinxLogHandler : Type where
  translator : Bool
  only_once_seen : List (String × String)
  diagnostics : List (String × List Diagnostic)
deriving DecidableEq

/-- A freshly constructed `SphinxLogHandler(app, self)`. -/
def SphinxLogHandler.fresh : SphinxLogHandler :=
  { translator := true, only_once_seen := [], diagnostics := [] }

/-- Embedding of `SphinxLogHandler.emit`. Records that are not Sphinx
warnings or errors only go through the normal logging path, which keeps the
diagnostic state unchanged; duplicates are dropped by the once filter; a
location whose parse raises inside the handler is swallowed by the logging
machinery (`Handler.handleError`), leaving the state as the filter left it.
The severity lookup is verbatim from the source: `DIAGNOSTIC_SEVERITY.get(
record.levelno, DiagnosticSeverity.Warning)` with the integer level as key. -/
def SphinxLogHandler.emit (isWin : Bool) (fromFsPath : String → String)
    (self : SphinxLogHandler) (record : LogRecord) : SphinxLogHandler :=
  let conditions : List Bool :=
    [!(containsSub "sphinx".data record.name.data),
     !(record.levelno = loggingWARNING || record.levelno = loggingERROR),
     !self.translator]
  if conditions.any (fun b => b) then
    self
  else if self.only_once_seen.contains (record.msg, record.location) then
    self
  else
    let self1 : SphinxLogHandler :=
      { self with only_once_seen := self.only_once_seen ++ [(record.msg, record.location)] }
    match get_location isWin fromFsPath record.location with
    | none => self1
    | some (doc, lineno) =>
      let line : Int := pyOrInt lineno 1
      let diagnostic : Diagnostic :=
        { range :=
            { start := { line := line - 1, character := 0 },
              stop := { line := line, character := 0 } },
          message := record.msg,
          severity := pyDictGet DIAGNOSTIC_SEVERITY (PyKey.int record.levelno)
            DiagnosticSeverity.Warning }
      { self1 with diagnostics := diagAppend self1.diagnostics doc diagnostic }

/-- An object type of a Sphinx domain, reduced to the field the module reads:
the roles associated with it. -/
structure ObjectType : Type where
  roles : List String
deriving DecidableEq

/-- A Sphinx domain as the module reads it: its roles, directives and object
types, each an insertion ordered mapping. The values of roles and directives
are opaque to the module and are represented by strings. -/
structure Domain : Type where
  roles : List (String × String) := []
  directives : List (String × String) := []
  object_types : List (String × ObjectType) := []
deriving DecidableEq

/-- The slice of the external Sphinx application object that the module
reads: the configuration directory, the primary domain setting, the registered
domains in registration order, the named intersphinx inventory (project name,
then qualified type key, then an opaque entry represented by a string), and
the warning counter the module resets. -/
structure SphinxApp : Type where
  confdir : String
  primary_domain : Option String := none
  domains : List (String × Domain) := []
  intersphinx_named_inventory : List (String × List (String × String)) := []
  warncount : Nat := 0
deriving DecidableEq

/-- The `esbonio.sphinx.*` options (class SphinxConfig), with their defaults. -/
structure SphinxConfig : Type where
  version : Option String := none
  conf_dir : Option String := none
  src_dir : Option String := none
  build_dir : Option String := none
  builder_name : String := "html"
deriving DecidableEq

/-- The `esbonio.server.*` options (class SphinxServerConfig). -/
structure SphinxServerConfig : Type where
  hide_sphinx_output : Bool := false
deriving DecidableEq

/-- The validated initialization options (class InitializationOptions). -/
structure InitializationOptions : Type where
  sphinx : SphinxConfig := {}
  server : SphinxServerConfig := {}
deriving DecidableEq

/-- A value that is either a `pathlib.Path` or a plain `str`. The module
mixes the two: `find_conf_dir` can return a `Path` (discovery, or an expanded
`${workspaceRoot}` override) or a plain string (an override returned
verbatim by `expand_conf_dir`), and `save` additionally substitutes the
string `""` when nothing was found. The distinction matters because the `/`
operator exists only on `Path`. -/
inductive PathOrStr : Type
  | path (p : String)
  | str (s : String)
deriving DecidableEq

/-- Underlying string of a `PathOrStr` (the `str(x)` view). -/
def PathOrStr.val : PathOrStr → String
  | .path p => p
  | .str s => s

/-- The Python `Path / child` join for the simple absolute POSIX style paths
of this model (no trailing slash normalization is needed for them). -/
def pathJoin (base child : String) : String :=
  if base = "" then child else base ++ "/" ++ child

/-- The Python `pathlib` parent of a path, for the POSIX style paths of this
model: everything before the last slash. -/
def pathParent (p : String) : String :=
  String.mk (((splitOnChar '/' p.data).dropLast).foldr
    (fun seg acc => if acc = [] then seg else seg ++ '/' :: acc) [])

/-- The `/` operator applied to a `PathOrStr`: joining works on a `Path`,
while `str / str` raises `TypeError` in Python because strings have no `/`
operator. -/
def pathDiv (p : PathOrStr) (child : String) : Except PyError String :=
  match p with
  | .path base => .ok (pathJoin base child)
  | .str _ => .error .typeError

/-- Result of matching `PATH_VAR_PATTERN`, the compiled regular expression
anchored at the start of the string: a dollar sign and an opening brace, one
or more word characters forming group 1, and a closing brace (its trailing
slash and tail are optional, so they never make the match fail). The result
is group 1 when the pattern matches. Word characters follow the ASCII reading
of the regex class. -/
def isWordChar (c : Char) : Bool :=
  c.isAlpha || c.isDigit || c = '_'

/-- Longest prefix of word characters and the remainder. -/
def wordSpan : List Char → List Char × List Char
  | [] => ([], [])
  | c :: cs =>
    if isWordChar c then
      let (w, r) := wordSpan cs
      (c :: w, r)
    else ([], c :: cs)

/-- Group 1 of `PATH_VAR_PATTERN.match(s)`, or `none` when the pattern does
not match. -/
def matchPathVar (s : String) : Option String :=
  match s.data with
  | c1 :: c2 :: rest =>
    if c1 = '$' ∧ c2 = '{' then
      match wordSpan rest with
      | ([], _) => none
      | (w, r) =>
        match r with
        | '}' :: _ => some (String.mk w)
        | _ => none
    else none
  | _ => none

/-- Embedding of `pathlib.Path(conf_dir).parts[1:]` joined onto the root and
resolved, for the POSIX style inputs of this model: the path components after
the first one, appended to the root directory. (The final `resolve()`
normalization is the identity on the already absolute, dot free paths this
model uses.) -/
def expandTail (root_dir conf_dir : String) : String :=
  (((splitOnChar '/' conf_dir.data).filter (fun seg => seg ≠ [])).drop 1).foldl
    (fun acc seg => acc ++ "/" ++ String.mk seg) root_dir

/-- Embedding of `expand_conf_dir`: when the pattern does not match, or group
1 is not `workspaceRoot`, the user string is returned verbatim (a `str`);
otherwise the remaining components are joined onto the workspace root (a
`Path`). -/
def expand_conf_dir (root_dir conf_dir : String) : PathOrStr :=
  match matchPathVar conf_dir with
  | none => .str conf_dir
  | some g1 =>
    if g1 = "workspaceRoot" then .path (expandTail root_dir conf_dir)
    else .str conf_dir

/-- The environment around one server: the platform flag (`pygls.IS_WIN`),
the two pygls uri/path converters, the results of the workspace glob for
`conf.py` files in discovery order, and the external `Sphinx(...)`
constructor, keyed by the configuration directory it is given (the source
and build directory arguments only feed this external constructor and do not
come back into the module). -/
structure World : Type where
  isWin : Bool := false
  fromFsPath : String → String
  toFsPath : String → String
  conf_candidates : List String := []
  mkSphinx : String → SphinxApp

/-- State of a `SphinxLanguageServer`. The caches `role_target_types` and
`role_targets` embed the attributes `_role_target_types` and `_role_targets`
set in `__init__`; `directives_cache` and `roles_cache` embed `_directives`
and `_roles` owned by the base class. The last four fields embed, modelled
from the spec, the protocol side bookkeeping of the base class
`RstLanguageServer` (its source file is not among the sources):
`diagnostics_store` holds the per document diagnostics under the source
`sphinx` as maintained by `set_diagnostics` / `clear_diagnostics`,
`published` is what the protocol layer last received from
`sync_diagnostics`, `messages` records `show_message` calls and
`notifications` records `send_notification` calls. -/
structure SphinxLanguageServer : Type where
  workspace_root : String
  user_config : InitializationOptions := {}
  app : Option SphinxApp := none
  sphinx_log : Option SphinxLogHandler := none
  directives_cache : Option (List (String × String)) := none
  roles_cache : Option (List (String × String)) := none
  role_target_types : Option (List (String × List String)) := none
  role_targets : Option (List (String × List String)) := none
  diagnostics_store : List (String × List Diagnostic) := []
  published : List (String × List Diagnostic) := []
  messages : List MessageEntry := []
  notifications : List String := []
deriving DecidableEq

/-- Modelled from the spec: `RstLanguageServer.set_diagnostics(source, uri,
diagnostics)` stores the given list for the document, replacing whatever the
document had (replace semantics per document; the only source used by this
module is `sphinx`, so the source key is dropped). -/
def set_diagnostics (s : SphinxLanguageServer) (doc : String)
    (ds : List Diagnostic) : SphinxLanguageServer :=
  { s with diagnostics_store := alistSet s.diagnostics_store doc ds }

/-- Modelled from the spec: `RstLanguageServer.clear_diagnostics(source,
uri)` clears only the given document. -/
def clear_diagnostics (s : SphinxLanguageServer) (doc : String) :
    SphinxLanguageServer :=
  { s with diagnostics_store := alistSet s.diagnostics_store doc [] }

/-- Modelled from the spec: `RstLanguageServer.sync_diagnostics()` pushes the
stored diagnostics to the protocol layer. -/
def sync_diagnostics (s : SphinxLanguageServer) : SphinxLanguageServer :=
  { s with published := s.diagnostics_store }

/-- Modelled from the spec: `show_message` surfaces a user notification. -/
def show_message (s : SphinxLanguageServer) (t : MessageType) (m : String) :
    SphinxLanguageServer :=
  { s with messages := s.messages ++ [{ msg_type := t, message := m }] }

/-- The diagnostics visible to the editor for one document (an absent key and
an empty list are indistinguishable on the protocol side). -/
def visibleDiagnostics (s : SphinxLanguageServer) (doc : String) :
    List Diagnostic :=
  (s.published.lookup doc).getD []

/-- The object actually handed to `find_conf_dir` at its two call sites.
Python is dynamically typed: the parameter of `find_conf_dir` is annotated
`SphinxConfig` and `create_sphinx_app` does pass `options.sphinx`, but `save`
passes the whole `self.user_config`, an `InitializationOptions` object. The
distinction matters because the first thing `find_conf_dir` does is read the
`conf_dir` attribute, which only `SphinxConfig` has. -/
inductive ConfigArg : Type
  | sphinxConfig (c : SphinxConfig)
  | initializationOptions (o : InitializationOptions)
deriving DecidableEq

/-- Embedding of the free function `find_conf_dir`. The attribute read
`config.conf_dir` raises `AttributeError` when the argument is an
`InitializationOptions` object (its only fields are `sphinx` and `server`),
which is what `save` passes. With a proper `SphinxConfig`: an override is
expanded and returned as is (which can be a plain string); otherwise the
first glob candidate whose path contains neither `.tox` nor `site-packages`
wins, and its parent directory is returned; no candidate means `None`. -/
def find_conf_dir (w : World) (root_uri : String) (config : ConfigArg) :
    Except PyError (Option PathOrStr) :=
  let root := w.toFsPath root_uri
  match config with
  | .initializationOptions _ => .error .attributeError
  | .sphinxConfig c =>
    match c.conf_dir with
    | some cd => .ok (some (expand_conf_dir root cd))
    | none =>
      match w.conf_candidates.filter
          (fun cand => !(containsSub ".tox".data cand.data ||
                         containsSub "site-packages".data cand.data)) with
      | [] => .ok none
      | cand :: _ => .ok (some (.path (pathParent cand)))

/-- The failure modes of `create_sphinx_app` that `_initialize_sphinx`
distinguishes: the `MissingConfigError` raised when no configuration
directory was found, and any other exception. -/
inductive SphinxInitError : Type
  | missingConfig
  | other
deriving DecidableEq

/-- The warning message shown when `conf.py` cannot be found. -/
def missingConfigMessage : String :=
  "Unable to find your conf.py, features that depend on Sphinx will be unavailable"

/-- The error message shown when Sphinx fails to initialize. -/
def initFailedMessage : String :=
  "Unable to initialize Sphinx, see output window for details."

/-- The error message shown when a build attempt raises. -/
def buildFailedMessage : String :=
  "Unable to build documentation, see output window for details."

/-- Embedding of `SphinxLanguageServer.create_sphinx_app`: resolve the
configuration directory (raising `MissingConfigError` when absent), construct
the external Sphinx application, and install a fresh `SphinxLogHandler` on
the server only when `hideSphinxOutput` is false. This call site passes the
`sphinx` namespace of the options, so `find_conf_dir` cannot actually raise
here; an exception escaping it would simply propagate and be caught by the
generic except clause of `_initialize_sphinx`, hence the `other` branch. -/
def create_sphinx_app (w : World) (s : SphinxLanguageServer) :
    Except SphinxInitError (SphinxLanguageServer × SphinxApp) :=
  match find_conf_dir w s.workspace_root
      (ConfigArg.sphinxConfig s.user_config.sphinx) with
  | .error _ => .error .other
  | .ok none => .error .missingConfig
  | .ok (some conf_dir) =>
    let app := w.mkSphinx conf_dir.val
    let s1 :=
      if !s.user_config.server.hide_sphinx_output then
        { s with sphinx_log := some SphinxLogHandler.fresh }
      else s
    .ok (s1, app)

/-- Embedding of `SphinxLanguageServer._initialize_sphinx`: a
`MissingConfigError` surfaces a warning, any other failure an error; both
leave the method returning `None`. -/
def initialize_sphinx (w : World) (s : SphinxLanguageServer) :
    SphinxLanguageServer × Option SphinxApp :=
  match create_sphinx_app w s with
  | .ok (s1, app) => (s1, some app)
  | .error .missingConfig =>
    (show_message s MessageType.Warning missingConfigMessage, none)
  | .error .other =>
    (show_message s MessageType.Error initFailedMessage, none)

/-- Diagnostics accumulated by the handler while the engine replays the given
log records on a handler whose accumulator was just reset (the
`self.sphinx_log.diagnostics = {}` line of `build`). -/
def buildDiagnostics (w : World) (records : List LogRecord)
    (log : SphinxLogHandler) : SphinxLogHandler :=
  records.foldl (fun l r => l.emit w.isWin w.fromFsPath r)
    { log with diagnostics := [] }

/-- The publishing loop of `build`: one `set_diagnostics` call per document
of the handler accumulator. -/
def publishLoop (s : SphinxLanguageServer)
    (m : List (String × List Diagnostic)) : SphinxLanguageServer :=
  m.foldl (fun s1 kv => set_diagnostics s1 kv.1 kv.2) s

/-- Embedding of `SphinxLanguageServer.build`. The external build entry point
is represented by the log records the engine emits through the installed
handler during this attempt, plus a flag telling whether it then raises; the
`except` clause turns the exception into an error notification. The
unconditional read of `self.sphinx_log` raises `AttributeError` when the
attribute was never set (it is only set by `create_sphinx_app`, and only when
`hideSphinxOutput` is false). After the attempt, every accumulated group is
copied into the store, the build complete notification is sent and the
diagnostics are synchronized. -/
def build (w : World) (records : List LogRecord) (buildRaises : Bool)
    (s : SphinxLanguageServer) : Except PyError SphinxLanguageServer :=
  match s.app with
  | none => .ok s
  | some app =>
    match s.sphinx_log with
    | none => .error .attributeError
    | some log =>
      let app1 := { app with warncount := 0 }
      let log1 := buildDiagnostics w records log
      let s1 := { s with app := some app1, sphinx_log := some log1 }
      let s2 :=
        if buildRaises then show_message s1 MessageType.Error buildFailedMessage
        else s1
      let s3 := publishLoop s2 log1.diagnostics
      let s4 := { s3 with notifications := s3.notifications ++ ["esbonio/buildComplete"] }
      .ok (sync_diagnostics s4)

/-- Embedding of `SphinxLanguageServer.save`. The base class `save` is a
feature dispatch hook with no effect on this state (modelled from the spec).
A document whose path ends in `conf.py` is compared against the active (or
freshly resolved) configuration directory and on a match the application is
re-created. With no active application, the source passes the whole
`self.user_config` object to `find_conf_dir`, whose `config.conf_dir` read
then raises `AttributeError` out of the save handler; the `or ""` fallback
(the `getD` below) and the `conf_dir / "conf.py"` expression behind it — a
`TypeError` on a plain string — are dead code on that path. Any other
document only has its own diagnostics cleared. Both branches end in a build,
whose engine behaviour is given by `records` and `buildRaises`. -/
def save (w : World) (records : List LogRecord) (buildRaises : Bool)
    (s : SphinxLanguageServer) (doc_uri : String) :
    Except PyError SphinxLanguageServer :=
  let filepath := w.toFsPath doc_uri
  if endsWithL "conf.py".data filepath.data then
    let conf_dirE : Except PyError PathOrStr :=
      match s.app with
      | some app => .ok (.path app.confdir)
      | none =>
        match find_conf_dir w s.workspace_root
            (ConfigArg.initializationOptions s.user_config) with
        | .error e => .error e
        | .ok r => .ok (r.getD (.str ""))
    match conf_dirE with
    | .error e => .error e
    | .ok conf_dir =>
      match pathDiv conf_dir "conf.py" with
      | .error e => .error e
      | .ok joined =>
        let s1 :=
          if joined = filepath then
            let (s2, appOpt) := initialize_sphinx w s
            { s2 with app := appOpt }
          else s
        build w records buildRaises s1
  else
    build w records buildRaises (clear_diagnostics s doc_uri)

/-- The key format used throughout the module: `prefix:name` when the prefix
is nonempty (truthy), else the bare name. -/
def fmtKey (pfx name : String) : String :=
  if pfx = "" then name else pfx ++ ":" ++ name

/-- Embedding of `SphinxLanguageServer.get_domains`: every registered domain,
paired with its namespace prefix, which is empty for the `std` domain and for
the configured primary domain. An absent application gives the empty list. -/
def get_domains (s : SphinxLanguageServer) : List (String × Domain) :=
  match s.app with
  | none => []
  | some app =>
    app.domains.map (fun nd =>
      (if nd.1 = "std" || app.primary_domain = some nd.1 then "" else nd.1,
       nd.2))

/-- The index built by the cache miss branch of `get_role_target_types`:
iterate every domain, every object type and every role the object type lists,
and record the qualified object type key under the qualified role key. -/
def roleTargetTypesIndex (doms : List (String × Domain)) :
    List (String × List String) :=
  doms.foldl
    (fun acc pd =>
      pd.2.object_types.foldl
        (fun acc2 nt =>
          nt.2.roles.foldl
            (fun acc3 role =>
              let role_key := fmtKey pd.1 role
              alistSet acc3 role_key
                (((acc3.lookup role_key).getD []) ++ [fmtKey pd.1 nt.1]))
            acc2)
        acc)
    []

/-- Embedding of `SphinxLanguageServer.get_role_target_types`: answer from
the cache when it exists, otherwise build the index from the current domains,
store it, and answer from it. The result pairs the possibly updated server
with the returned list. -/
def get_role_target_types (s : SphinxLanguageServer) (name : String)
    (domain : String) : SphinxLanguageServer × List String :=
  let key := if domain = "" then name else domain ++ ":" ++ name
  match s.role_target_types with
  | some idx => (s, (idx.lookup key).getD [])
  | none =>
    let idx := roleTargetTypesIndex (get_domains s)
    ({ s with role_target_types := some idx }, (idx.lookup key).getD [])

/-- The target collection loop of `get_intersphinx_targets`: for each target
type, try the bare key, then the primary domain qualified key, then the `std`
qualified key of the project inventory, in that order, recording the first
hit under the bare target type; a target type with no hit adds nothing. -/
def isphxLoop (inv : List (String × String)) (pd : String) :
    List String → List (String × String) → List (String × String)
  | [], acc => acc
  | tt :: rest, acc =>
    let acc1 :=
      match inv.lookup tt with
      | some v => alistSet acc tt v
      | none =>
        match inv.lookup (pd ++ ":" ++ tt) with
        | some v => alistSet acc tt v
        | none =>
          match inv.lookup ("std:" ++ tt) with
          | some v => alistSet acc tt v
          | none => acc
    isphxLoop inv pd rest acc1

/-- Embedding of `SphinxLanguageServer.get_intersphinx_targets`. Reading
`self.app.env` with no application raises `AttributeError`; an unknown
project gives an empty mapping; otherwise the loop above runs over the target
types of the role, with the primary domain defaulting to the empty string. -/
def get_intersphinx_targets (s : SphinxLanguageServer) (project name : String)
    (domain : String) :
    Except PyError (SphinxLanguageServer × List (String × String)) :=
  match s.app with
  | none => .error .attributeError
  | some app =>
    match app.intersphinx_named_inventory.lookup project with
    | none => .ok (s, [])
    | some inv =>
      let pd := app.primary_domain.getD ""
      let sTts := get_role_target_types s name domain
      .ok (sTts.1, isphxLoop inv pd sTts.2 [])

/-- The priority chain of the intersphinx lookup, as a function: the bare
type key first, then the primary domain qualified key, then the `std`
qualified key. -/
def isphxPriority (inv : List (String × String)) (pd tt : String) :
    Option String :=
  ((inv.lookup tt).orElse
    (fun _ => (inv.lookup (pd ++ ":" ++ tt)).orElse
      (fun _ => inv.lookup ("std:" ++ tt))))

/-- Concrete uri mapper used by the scenarios, standing in for the pygls
`uri.from_fs_path` helper on simple POSIX paths. -/
def ffp (p : String) : String := "file://" ++ p

/-- Concrete path mapper used by the scenarios, standing in for the pygls
`uri.to_fs_path` helper on simple POSIX paths: strip the scheme. -/
def tfp (u : String) : String := String.mk (u.data.drop 7)

/-- Scenario: a Python domain whose object type `function` is targeted by the
role `func`. -/
def pyDomainS : Domain :=
  { roles := [("func", "XRefRole")],
    object_types := [("function", { roles := ["func"] })] }

/-- Scenario: a JavaScript style domain whose object type `method` is
targeted by the role `meth`. -/
def jsDomainS : Domain :=
  { roles := [("meth", "XRefRole")],
    object_types := [("method", { roles := ["meth"] })] }

/-- Scenario: the first application instance, carrying only the `py` domain. -/
def app1C1 : SphinxApp := { confdir := "/proj", domains := [("py", pyDomainS)] }

/-- Scenario: the replacement application instance created by the conf.py
save, carrying only the `js` domain. -/
def app2C1 : SphinxApp := { confdir := "/proj", domains := [("js", jsDomainS)] }

/-- Scenario world for the cache invalidation claim: re-initialization
produces the second application. -/
def worldC1 : World :=
  { fromFsPath := ffp, toFsPath := tfp, mkSphinx := fun _ => app2C1 }

/-- Scenario server holding the first application and a live handler, with an
explicit conf dir override pointing at the project root. -/
def serverC1 : SphinxLanguageServer :=
  { workspace_root := "file:///proj",
    user_config := { sphinx := { conf_dir := some "/proj" } },
    app := some app1C1,
    sphinx_log := some SphinxLogHandler.fresh }

/-- The scenario server after one `get_role_target_types` query has populated
the cache from the first application. -/
def serverC1b : SphinxLanguageServer := (get_role_target_types serverC1 "func" "py").1

/-- The result of saving `conf.py` on the populated scenario server, which
replaces the application. -/
def serverC1c : SphinxLanguageServer :=
  ((save worldC1 [] false serverC1b "file:///proj/conf.py").toOption).getD serverC1b

/-- Scenario: an application for the diagnostic claims. -/
def appS : SphinxApp := { confdir := "/proj" }

/-- Scenario world for the diagnostic claims. -/
def worldS : World := { fromFsPath := ffp, toFsPath := tfp, mkSphinx := fun _ => appS }

/-- Scenario: a Sphinx warning record located in document `a.rst` line 3. -/
def recA : LogRecord :=
  { name := "sphinx.environment", levelno := 30, msg := "bad reference",
    location := "/proj/a.rst:3" }

/-- Scenario server for the diagnostic claims: live application and handler,
empty stores. -/
def serverS : SphinxLanguageServer :=
  { workspace_root := "file:///proj", app := some appS,
    sphinx_log := some SphinxLogHandler.fresh }

/-- The diagnostic the handler produces for `recA`. -/
def diagA : Diagnostic :=
  { range := { start := { line := 2, character := 0 },
               stop := { line := 3, character := 0 } },
    message := "bad reference", severity := DiagnosticSeverity.Warning }

/-- Scenario: a Sphinx record at error level. -/
def errRecC3 : LogRecord :=
  { name := "sphinx.errors", levelno := 40, msg := "broken",
    location := "/proj/a.rst:3" }

/-- The diagnostic the handler actually produces for the error record: its
severity is Warning. -/
def diagC3 : Diagnostic :=
  { range := { start := { line := 2, character := 0 },
               stop := { line := 3, character := 0 } },
    message := "broken", severity := DiagnosticSeverity.Warning }

/-- Scenario: an application whose primary domain is `py` (so its target
types are unqualified) and whose `numpy` inventory holds the same type under
both the bare and the qualified key. -/
def appC7 : SphinxApp :=
  { confdir := "/proj", primary_domain := some "py",
    domains := [("py", pyDomainS)],
    intersphinx_named_inventory :=
      [("numpy", [("function", "BARE"), ("py:function", "PREFIXED")])] }

/-- Scenario server for the intersphinx claim. -/
def serverC7 : SphinxLanguageServer :=
  { workspace_root := "file:///proj", app := some appC7 }

/-- Scenario world for the save crash claim, matching the input the claim
names: the only conf.py candidate lies under `.tox`, so no configuration
directory is discoverable — though the crash happens before discovery could
even run, at the `config.conf_dir` attribute read. -/
def worldC9 : World :=
  { fromFsPath := ffp, toFsPath := tfp,
    conf_candidates := ["/ws/.tox/proj/conf.py"], mkSphinx := fun _ => appS }

/-- Scenario server for the save crash claim: no application, no overrides. -/
def serverC9 : SphinxLanguageServer := { workspace_root := "file:///ws" }

/-- Scenario world for the hidden output claim. -/
def worldC10 : World :=
  { fromFsPath := ffp, toFsPath := tfp,
    conf_candidates := ["/ws/docs/conf.py"],
    mkSphinx := fun cd => { confdir := cd } }

/-- Scenario server initialized with `hideSphinxOutput = true`. -/
def serverC10 : SphinxLanguageServer :=
  { workspace_root := "file:///ws",
    user_config := { server := { hide_sphinx_output := true } } }

/-- Unfolding lemma: keys of the empty association list. -/
theorem alistKeys_nil {α : Type} : alistKeys ([] : List (String × α)) = [] := rfl

/-- Unfolding lemma: keys of a nonempty association list. -/
theorem alistKeys_cons {α : Type} (kv : String × α) (rest : List (String × α)) :
    alistKeys (kv :: rest) = kv.1 :: alistKeys rest := rfl

/-- Looking up the key just set gives the new value. -/
theorem alistSet_lookup_self {α : Type} (m : List (String × α)) (k : String)
    (v : α) : (alistSet m k v).lookup k = some v := by
  induction m with
  | nil => simp [alistSet, List.lookup]
  | cons kv rest ih =>
    obtain ⟨k1, v1⟩ := kv
    by_cases h : k1 = k
    · subst h
      simp [alistSet, List.lookup]
    · have hb : (k == k1) = false := beq_eq_false_iff_ne.mpr (Ne.symm h)
      simp [alistSet, h, List.lookup, hb, ih]

/-- Setting one key leaves every other lookup unchanged. -/
theorem alistSet_lookup_ne {α : Type} (m : List (String × α)) (k k1 : String)
    (v : α) (h : k1 ≠ k) : (alistSet m k v).lookup k1 = m.lookup k1 := by
  have hb : (k1 == k) = false := beq_eq_false_iff_ne.mpr h
  induction m with
  | nil => simp [alistSet, List.lookup, hb]
  | cons kv rest ih =>
    obtain ⟨k2, v2⟩ := kv
    by_cases h2 : k2 = k
    · subst h2
      simp [alistSet, List.lookup, hb]
    · cases hc : (k1 == k2) <;> simp [alistSet, h2, List.lookup, hc, ih]

/-- A lookup misses exactly when the key is absent. -/
theorem alist_lookup_none {α : Type} (m : List (String × α)) (k : String) :
    m.lookup k = none ↔ k ∉ alistKeys m := by
  induction m with
  | nil => simp [List.lookup, alistKeys_nil]
  | cons kv rest ih =>
    obtain ⟨k1, v1⟩ := kv
    cases hc : (k == k1) with
    | true =>
      have := eq_of_beq hc
      simp [List.lookup, hc, alistKeys_cons, this]
    | false =>
      simp [List.lookup, hc, alistKeys_cons, ih, ne_of_beq_false hc]

/-- Unfolding lemma for one publishing step. -/
theorem publishLoop_cons (s : SphinxLanguageServer)
    (kv : String × List Diagnostic) (rest : List (String × List Diagnostic)) :
    publishLoop s (kv :: rest) = publishLoop (set_diagnostics s kv.1 kv.2) rest := rfl

/-- The publishing loop only rewrites the diagnostics store; every other
field of the server survives it. -/
theorem publishLoop_fields (m : List (String × List Diagnostic))
    (s : SphinxLanguageServer) :
    (publishLoop s m).app = s.app ∧
    (publishLoop s m).sphinx_log = s.sphinx_log ∧
    (publishLoop s m).role_target_types = s.role_target_types ∧
    (publishLoop s m).role_targets = s.role_targets ∧
    (publishLoop s m).messages = s.messages ∧
    (publishLoop s m).published = s.published := by
  induction m generalizing s with
  | nil => simp [publishLoop]
  | cons kv rest ih =>
    rw [publishLoop_cons]
    simpa [set_diagnostics] using ih (set_diagnostics s kv.1 kv.2)

/-- Documents not mentioned by the publishing loop keep their stored
diagnostics. -/
theorem publishLoop_store_not_mem (m : List (String × List Diagnostic))
    (s : SphinxLanguageServer) (doc : String) (h : doc ∉ alistKeys m) :
    (publishLoop s m).diagnostics_store.lookup doc =
      s.diagnostics_store.lookup doc := by
  induction m generalizing s with
  | nil => simp [publishLoop]
  | cons kv rest ih =>
    rw [alistKeys_cons] at h
    simp at h
    rw [publishLoop_cons]
    rw [ih (set_diagnostics s kv.1 kv.2) h.2]
    simp [set_diagnostics, alistSet_lookup_ne _ _ _ _ h.1]

/-- Documents the publishing loop does mention end up with exactly the list
the loop carried for them, provided the mapping has no duplicate keys (the
handler accumulator never has any). -/
theorem publishLoop_store_mem (m : List (String × List Diagnostic))
    (s : SphinxLanguageServer) (doc : String) (ds : List Diagnostic)
    (hnd : (alistKeys m).Nodup) (h : m.lookup doc = some ds) :
    (publishLoop s m).diagnostics_store.lookup doc = some ds := by
  induction m generalizing s with
  | nil => simp [List.lookup] at h
  | cons kv rest ih =>
    obtain ⟨k, v⟩ := kv
    rw [alistKeys_cons] at hnd
    rw [List.nodup_cons] at hnd
    rw [publishLoop_cons]
    cases hc : (doc == k) with
    | true =>
      have hk : doc = k := eq_of_beq hc
      subst hk
      simp [List.lookup, hc] at h
      subst h
      rw [publishLoop_store_not_mem rest _ doc hnd.1]
      simp [set_diagnostics, alistSet_lookup_self]
    | false =>
      simp [List.lookup, hc] at h
      exact ih (set_diagnostics s k v) hnd.2 h

/-- Appending a diagnostic adds the document key only when it is new. -/
theorem diagAppend_keys (m : List (String × List Diagnostic)) (doc : String)
    (d : Diagnostic) :
    alistKeys (diagAppend m doc d) =
      if doc ∈ alistKeys m then alistKeys m else alistKeys m ++ [doc] := by
  induction m with
  | nil => simp [diagAppend, alistKeys_nil, alistKeys_cons]
  | cons kv rest ih =>
    obtain ⟨k, ds⟩ := kv
    by_cases h : k = doc
    · subst h
      simp [diagAppend, alistKeys_cons]
    · simp [diagAppend, h, alistKeys_cons, ih, Ne.symm h]
      by_cases hm : doc ∈ alistKeys rest <;> simp [hm]

/-- Appending a diagnostic keeps the document keys duplicate free. -/
theorem diagAppend_nodup (m : List (String × List Diagnostic)) (doc : String)
    (d : Diagnostic) (h : (alistKeys m).Nodup) :
    (alistKeys (diagAppend m doc d)).Nodup := by
  rw [diagAppend_keys]
  by_cases hm : doc ∈ alistKeys m
  · simpa [hm] using h
  · simp [hm]
    exact List.Nodup.append h (List.nodup_singleton doc) (by simp [List.disjoint_left, hm])

/-- Appending a diagnostic grows the total diagnostic count by one. -/
theorem diagAppend_count (m : List (String × List Diagnostic)) (doc : String)
    (d : Diagnostic) :
    ((diagAppend m doc d).map (fun kv => kv.2.length)).sum =
      (m.map (fun kv => kv.2.length)).sum + 1 := by
  induction m with
  | nil => simp [diagAppend]
  | cons kv rest ih =>
    obtain ⟨k, ds⟩ := kv
    by_cases h : k = doc
    · subst h
      simp [diagAppend]
      omega
    · simp [diagAppend, h, ih]
      omega

/-- One `emit` keeps the accumulator keys duplicate free. -/
theorem emit_nodup (isWin : Bool) (f : String → String)
    (h : SphinxLogHandler) (r : LogRecord)
    (hn : (alistKeys h.diagnostics).Nodup) :
    (alistKeys (SphinxLogHandler.emit isWin f h r).diagnostics).Nodup := by
  simp only [SphinxLogHandler.emit]
  split
  · exact hn
  · split
    · exact hn
    · split
      · exact hn
      · exact diagAppend_nodup _ _ _ hn

/-- Replaying any record list through `emit` keeps the accumulator keys
duplicate free. -/
theorem foldl_emit_nodup (isWin : Bool) (f : String → String)
    (records : List LogRecord) (h : SphinxLogHandler)
    (hn : (alistKeys h.diagnostics).Nodup) :
    (alistKeys ((records.foldl (fun l r => l.emit isWin f r) h).diagnostics)).Nodup := by
  induction records generalizing h with
  | nil => exact hn
  | cons r rest ih =>
    exact ih (h.emit isWin f r) (emit_nodup isWin f h r hn)

/-- A build attempt accumulates a duplicate free per document mapping. -/
theorem buildDiagnostics_nodup (w : World) (records : List LogRecord)
    (log : SphinxLogHandler) :
    (alistKeys (buildDiagnostics w records log).diagnostics).Nodup := by
  unfold buildDiagnostics
  exact foldl_emit_nodup w.isWin w.fromFsPath records _ (by simp [alistKeys_nil])

/-- The publishing loop preserves the application slot. -/
theorem publishLoop_app (m : List (String × List Diagnostic))
    (s : SphinxLanguageServer) : (publishLoop s m).app = s.app :=
  (publishLoop_fields m s).1

/-- The publishing loop preserves the role target type cache. -/
theorem publishLoop_rtt (m : List (String × List Diagnostic))
    (s : SphinxLanguageServer) :
    (publishLoop s m).role_target_types = s.role_target_types :=
  (publishLoop_fields m s).2.2.1

/-- The publishing loop preserves the role target cache. -/
theorem publishLoop_rts (m : List (String × List Diagnostic))
    (s : SphinxLanguageServer) :
    (publishLoop s m).role_targets = s.role_targets :=
  (publishLoop_fields m s).2.2.2.1

/-- The publishing loop preserves the message log. -/
theorem publishLoop_messages (m : List (String × List Diagnostic))
    (s : SphinxLanguageServer) : (publishLoop s m).messages = s.messages :=
  (publishLoop_fields m s).2.2.2.2.1

/-- Re-creating the application touches only the log handler slot and the
message log: the index caches and the diagnostic bookkeeping survive
`_initialize_sphinx` untouched. -/
theorem initialize_sphinx_fields (w : World) (s : SphinxLanguageServer) :
    ((initialize_sphinx w s).1).role_target_types = s.role_target_types ∧
    ((initialize_sphinx w s).1).role_targets = s.role_targets ∧
    ((initialize_sphinx w s).1).diagnostics_store = s.diagnostics_store ∧
    ((initialize_sphinx w s).1).published = s.published := by
  rcases hf : find_conf_dir w s.workspace_root
      (ConfigArg.sphinxConfig s.user_config.sphinx) with e | r
  · simp [initialize_sphinx, create_sphinx_app, hf, show_message]
  · rcases r with _ | cd
    · simp [initialize_sphinx, create_sphinx_app, hf, show_message]
    · simp only [initialize_sphinx, create_sphinx_app, hf]
      split <;> simp

/-- A successful build leaves both role caches untouched. -/
theorem build_ok_caches (w : World) (recs : List LogRecord) (rb : Bool)
    (s s1 : SphinxLanguageServer) (h : build w recs rb s = .ok s1) :
    s1.role_target_types = s.role_target_types ∧
    s1.role_targets = s.role_targets := by
  rcases happ : s.app with _ | app
  · simp [build, happ] at h
    subst h
    exact ⟨rfl, rfl⟩
  · rcases hlog : s.sphinx_log with _ | log
    · simp [build, happ, hlog] at h
    · cases rb <;>
        · simp only [build, happ, hlog, Bool.false_eq_true, if_false, if_true,
            Except.ok.injEq] at h
          subst h
          simp [sync_diagnostics, publishLoop_rtt, publishLoop_rts, show_message]

/-- Amended form of stale diagnostic carry-over: after a build whose engine
run produced no record for a document, the published entry for that document
is whatever the store already held before the build, not the empty list. -/
theorem c2_stale_carry_over (w : World) (recs : List LogRecord) (rb : Bool)
    (s : SphinxLanguageServer) (a : SphinxApp) (log : SphinxLogHandler)
    (doc : String) (ha : s.app = some a) (hl : s.sphinx_log = some log)
    (hnone : (buildDiagnostics w recs log).diagnostics.lookup doc = none) :
    ∃ s1, build w recs rb s = .ok s1 ∧
      s1.published.lookup doc = s.diagnostics_store.lookup doc := by
  have hmem := (alist_lookup_none _ _).mp hnone
  obtain ⟨wr, uc, sapp, slog, dc, rc, rtt, rts, store, pub, msgs, nots⟩ := s
  replace ha : sapp = some a := ha
  replace hl : slog = some log := hl
  subst ha
  subst hl
  refine ⟨_, rfl, ?_⟩
  cases rb <;>
    simp [build, sync_diagnostics, publishLoop_store_not_mem _ _ _ hmem,
      show_message]

/-- Amended form of the failed build behaviour: an exception from the build
entry point is caught, an error notification is recorded, the application
stays in place (only its warning counter was reset), and every diagnostic
group accumulated before the failure is still copied into the published
diagnostics rather than discarded. -/
theorem c4_failed_build (w : World) (recs : List LogRecord)
    (s : SphinxLanguageServer) (a : SphinxApp) (log : SphinxLogHandler)
    (ha : s.app = some a) (hl : s.sphinx_log = some log) :
    ∃ s1, build w recs true s = .ok s1
      ∧ s1.app = some { a with warncount := 0 }
      ∧ MessageEntry.mk MessageType.Error buildFailedMessage ∈ s1.messages
      ∧ ∀ doc ds,
          (buildDiagnostics w recs log).diagnostics.lookup doc = some ds →
          s1.published.lookup doc = some ds := by
  obtain ⟨wr, uc, sapp, slog, dc, rc, rtt, rts, store, pub, msgs, nots⟩ := s
  replace ha : sapp = some a := ha
  replace hl : slog = some log := hl
  subst ha
  subst hl
  refine ⟨_, rfl, ?_, ?_, ?_⟩
  · simp [build, sync_diagnostics, publishLoop_app, show_message]
  · simp [build, sync_diagnostics, publishLoop_messages, show_message]
  · intro doc ds hds
    simpa [build, sync_diagnostics] using
      publishLoop_store_mem _ _ doc ds (buildDiagnostics_nodup w recs log) hds

/-- A successful save, whichever branch it takes (conf.py re-initialization
included), never resets the role caches: nothing in `save`, in
`_initialize_sphinx` or in `build` writes to `_role_target_types` or
`_role_targets`. -/
theorem save_ok_caches (w : World) (recs : List LogRecord) (rb : Bool)
    (s s1 : SphinxLanguageServer) (uri : String)
    (h : save w recs rb s uri = .ok s1) :
    s1.role_target_types = s.role_target_types ∧
    s1.role_targets = s.role_targets := by
  simp only [save] at h
  split at h
  · rcases happ : s.app with _ | app
    · rw [happ] at h
      simp [find_conf_dir] at h
    · rw [happ] at h
      simp only [pathDiv] at h
      split at h
      · have hb := build_ok_caches _ _ _ _ _ h
        have hi := initialize_sphinx_fields w s
        exact ⟨hb.1.trans hi.1, hb.2.trans hi.2.1⟩
      · exact build_ok_caches _ _ _ _ _ h
  · have hb := build_ok_caches _ _ _ _ _ h
    simpa [clear_diagnostics] using hb

/-- C1, counterexample. Saving the active conf.py replaces the application
(the new model registers only the `js` domain), yet the next
`get_role_target_types "func" "py"` still answers `["py:function"]` from the
cache built against the previous application — while the index derived from
the currently active model has no `py:func` entry at all. The claim that
entries always derive from the currently active ProjectModel is therefore
false on this input. -/
theorem c1_counterexample :
    (save worldC1 [] false serverC1b "file:///proj/conf.py").map
        (fun s1 => ((get_role_target_types s1 "func" "py").2,
          (roleTargetTypesIndex (get_domains s1)).lookup "py:func",
          s1.app)) =
      .ok (["py:function"], none, some app2C1) := rfl

/-- C1, amended. The caches are not invalidated when the ProjectModel is
replaced: a successful save — including one that re-initializes the Sphinx
application after the active conf.py was saved — leaves `_role_target_types`
exactly as it was, so a subsequent `get_role_target_types` call answers from
the cache populated under the previous ProjectModel instance. -/
theorem c1_stale_cache_after_save (w : World) (recs : List LogRecord)
    (rb : Bool) (s s1 : SphinxLanguageServer) (uri : String)
    (idx : List (String × List String)) (name domain : String)
    (h : save w recs rb s uri = .ok s1)
    (hidx : s.role_target_types = some idx) :
    s1.role_target_types = some idx ∧
    (get_role_target_types s1 name domain).2 =
      (idx.lookup (if domain = "" then name else domain ++ ":" ++ name)).getD [] := by
  have hc := save_ok_caches w recs rb s s1 uri h
  refine ⟨hc.1.trans hidx, ?_⟩
  simp [get_role_target_types, hc.1, hidx]

/-- C1, witness for the amended theorem at the concrete scenario. -/
theorem c1_witness :
    (save worldC1 [] false serverC1b "file:///proj/conf.py").map
        (fun s1 => (get_role_target_types s1 "func" "py").2) =
      .ok ["py:function"] := by
  have h : save worldC1 [] false serverC1b "file:///proj/conf.py" = .ok serverC1c := rfl
  have h2 := c1_stale_cache_after_save worldC1 [] false serverC1b serverC1c
    "file:///proj/conf.py" [("py:func", ["py:function"])] "func" "py" h (by decide)
  rw [h]
  simp only [Except.map]
  rw [h2.2]
  rfl

/-- C2, counterexample. Build 1 produces a diagnostic for `a.rst`; a save of
the unrelated `b.rst` then triggers build 2, in which `a.rst` emits no
record. The diagnostics visible for `a.rst` after build 2 are still those of
build 1, not empty, so the claim that a document absent from the records of
the current build shows no diagnostics is false on this input. -/
theorem c2_counterexample :
    ((build worldS [recA] false serverS).bind
        (fun s1 => save worldS [] false s1 "file:///proj/b.rst")).map
        (fun s2 => visibleDiagnostics s2 "file:///proj/a.rst") =
      .ok [diagA] ∧
    [diagA] ≠ ([] : List Diagnostic) :=
  ⟨rfl, by decide⟩

/-- C2, witness for the amended theorem: in a second build emitting no
records, the document that had a diagnostic before retains exactly its old
stored entry. -/
theorem c2_witness :
    ∃ s1, build worldS [] false serverS = .ok s1 ∧
      s1.published.lookup "file:///proj/a.rst" =
        serverS.diagnostics_store.lookup "file:///proj/a.rst" :=
  c2_stale_carry_over worldS [] false serverS appS SphinxLogHandler.fresh
    "file:///proj/a.rst" rfl rfl (by decide)

/-- C4, counterexample. A build whose engine raises after emitting one
warning still copies that warning into the visible diagnostics — they are not
discarded — alongside the error notification and the retained application. -/
theorem c4_counterexample :
    (build worldS [recA] true serverS).map
        (fun s1 => (visibleDiagnostics s1 "file:///proj/a.rst", s1.messages,
          s1.app)) =
      .ok ([diagA], [MessageEntry.mk MessageType.Error buildFailedMessage],
        some appS) ∧
    [diagA] ≠ ([] : List Diagnostic) :=
  ⟨rfl, by decide⟩

/-- C4, witness for the amended theorem at the concrete failing build. -/
theorem c4_witness :
    ∃ s1, build worldS [recA] true serverS = .ok s1
      ∧ s1.app = some { appS with warncount := 0 }
      ∧ MessageEntry.mk MessageType.Error buildFailedMessage ∈ s1.messages
      ∧ ∀ doc ds,
          (buildDiagnostics worldS [recA] SphinxLogHandler.fresh).diagnostics.lookup doc = some ds →
          s1.published.lookup doc = some ds :=
  c4_failed_build worldS [recA] serverS appS SphinxLogHandler.fresh rfl rfl

/-- C3. The severity lookup `DIAGNOSTIC_SEVERITY.get(record.levelno, ...)`
keys the table by the integer level, while the table is keyed by the strings
`WARNING` and `ERROR`; the lookup therefore misses for every level and the
default Warning is used — in particular an ERROR record (level 40) yields a
Warning diagnostic, never Error. -/
theorem c3_severity_always_warning :
    (∀ n : Int, pyDictGet DIAGNOSTIC_SEVERITY (PyKey.int n)
        DiagnosticSeverity.Warning = DiagnosticSeverity.Warning) ∧
    (SphinxLogHandler.fresh.emit false ffp errRecC3).diagnostics =
      [("file:///proj/a.rst", [diagC3])] ∧
    diagC3.severity = DiagnosticSeverity.Warning :=
  ⟨fun _ => rfl, rfl, rfl⟩

/-- C5. Location parsing: a POSIX path with a trailing line number yields the
uri of the path and that line; a path without a line yields no line (the
handler then defaults the diagnostic to line 1, which is what the final
conjunct about `lineno or 1` records); on Windows a drive letter path is
rejoined before interpreting the remainder, giving the same shape of result
as the POSIX case; a single non numeric trailing segment gives no line; two
or more trailing segments give no line. The uri mapper is universally
quantified because it is the external pygls helper. -/
theorem c5_location_parsing :
    (∀ f : String → String,
      get_location false f "/doc/index.rst:42" =
        some (f "/doc/index.rst", some 42)) ∧
    (∀ f : String → String,
      get_location false f "/doc/index.rst" = some (f "/doc/index.rst", none)) ∧
    (∀ f : String → String,
      get_location true f "C:\\doc\\index.rst:42" =
        some (f "C:\\doc\\index.rst", some 42)) ∧
    (∀ (f : String → String) (loc : String) (p seg : List Char),
      splitOnChar ':' loc.data = [p, seg] → pyInt seg = none →
      get_location false f loc = some (f (String.mk p), none)) ∧
    (∀ (f : String → String) (loc : String) (p : List Char)
        (parts : List (List Char)),
      splitOnChar ':' loc.data = p :: parts → 2 ≤ parts.length →
      get_location false f loc = some (f (String.mk p), none)) ∧
    pyOrInt none 1 = 1 := by
  refine ⟨fun f => rfl, fun f => rfl, fun f => rfl, ?_, ?_, rfl⟩
  · intro f loc p seg hsplit hseg
    simp [get_location, hsplit, hseg]
  · intro f loc p parts hsplit hlen
    rcases parts with _ | ⟨a, _ | ⟨b, rest⟩⟩
    · simp at hlen
    · simp at hlen
    · simp [get_location, hsplit]

/-- C5, witness: a non numeric single trailing segment and a two segment
docstring style location, both at the concrete inputs. -/
theorem c5_witness :
    get_location false ffp "/doc/index.rst:abc" =
      some (ffp "/doc/index.rst", none) ∧
    get_location false ffp "/x.py:docstring of a.b:8" =
      some (ffp "/x.py", none) := by
  constructor
  · exact c5_location_parsing.2.2.2.1 ffp "/doc/index.rst:abc"
      "/doc/index.rst".data "abc".data (by decide) (by decide)
  · exact c5_location_parsing.2.2.2.2.1 ffp "/x.py:docstring of a.b:8"
      "/x.py".data ["docstring of a.b".data, "8".data] (by decide) (by decide)

/-- C6. Report once filtering: a Sphinx warning or error record whose
(message, location) pair has not been seen yet appends exactly one diagnostic
to the accumulator, and feeding the very same record again leaves the handler
completely unchanged — the once filter drops it before any diagnostic is
built. -/
theorem c6_report_once (f : String → String) (h : SphinxLogHandler)
    (r : LogRecord) (doc : String) (lineno : Option Int)
    (htr : h.translator = true)
    (hname : containsSub "sphinx".data r.name.data = true)
    (hlvl : r.levelno = loggingWARNING ∨ r.levelno = loggingERROR)
    (hseen : h.only_once_seen.contains (r.msg, r.location) = false)
    (hloc : get_location false f r.location = some (doc, lineno)) :
    SphinxLogHandler.emit false f (SphinxLogHandler.emit false f h r) r =
      SphinxLogHandler.emit false f h r ∧
    ((SphinxLogHandler.emit false f h r).diagnostics.map
        (fun kv => kv.2.length)).sum =
      (h.diagnostics.map (fun kv => kv.2.length)).sum + 1 := by
  have hB : (decide (r.levelno = loggingWARNING) ||
      decide (r.levelno = loggingERROR)) = true := by
    rcases hlvl with h1 | h1 <;> simp [h1]
  have hseen2 : (r.msg, r.location) ∉ h.only_once_seen := by simpa using hseen
  constructor
  · simp only [SphinxLogHandler.emit]
    simp [hname, htr, hB, hseen2, hloc]
  · simp only [SphinxLogHandler.emit]
    simp [hname, htr, hB, hseen2, hloc, diagAppend_count]

/-- C6, witness at a concrete warning record on a fresh handler. -/
theorem c6_witness :
    SphinxLogHandler.emit false ffp
        (SphinxLogHandler.emit false ffp SphinxLogHandler.fresh recA) recA =
      SphinxLogHandler.emit false ffp SphinxLogHandler.fresh recA ∧
    ((SphinxLogHandler.emit false ffp SphinxLogHandler.fresh recA).diagnostics.map
        (fun kv => kv.2.length)).sum =
      (SphinxLogHandler.fresh.diagnostics.map (fun kv => kv.2.length)).sum + 1 :=
  c6_report_once ffp SphinxLogHandler.fresh recA "file:///proj/a.rst" (some 3)
    rfl (by decide) (Or.inl rfl) rfl rfl

/-- Target types the loop never visits keep their accumulator entry. -/
theorem isphxLoop_lookup_not_mem (inv : List (String × String)) (pd : String)
    (l : List String) (acc : List (String × String)) (tt : String)
    (h : tt ∉ l) :
    (isphxLoop inv pd l acc).lookup tt = acc.lookup tt := by
  induction l generalizing acc with
  | nil => rfl
  | cons t rest ih =>
    simp at h
    simp only [isphxLoop]
    cases h1 : inv.lookup t with
    | some v => simp [h1, ih _ h.2, alistSet_lookup_ne _ _ _ _ h.1]
    | none =>
      cases h2 : inv.lookup (pd ++ ":" ++ t) with
      | some v => simp [h1, h2, ih _ h.2, alistSet_lookup_ne _ _ _ _ h.1]
      | none =>
        cases h3 : inv.lookup ("std:" ++ t) with
        | some v =>
          simp [h1, h2, h3, ih _ h.2, alistSet_lookup_ne _ _ _ _ h.1]
        | none => simp [h1, h2, h3, ih _ h.2]

/-- A visited target type ends up with the first hit of the priority chain,
or with its prior accumulator entry when the chain misses entirely. -/
theorem isphxLoop_lookup_mem (inv : List (String × String)) (pd : String)
    (l : List String) (acc : List (String × String)) (tt : String)
    (h : tt ∈ l) :
    (isphxLoop inv pd l acc).lookup tt =
      (isphxPriority inv pd tt).orElse (fun _ => acc.lookup tt) := by
  induction l generalizing acc with
  | nil => simp at h
  | cons t rest ih =>
    by_cases hmem : tt ∈ rest
    · simp only [isphxLoop]
      rw [ih _ hmem]
      by_cases ht : t = tt
      · subst ht
        unfold isphxPriority
        cases h1 : inv.lookup t with
        | some v => simp [h1, alistSet_lookup_self]
        | none =>
          cases h2 : inv.lookup (pd ++ ":" ++ t) with
          | some v => simp [h1, h2, alistSet_lookup_self]
          | none =>
            cases h3 : inv.lookup ("std:" ++ t) with
            | some v => simp [h1, h2, h3, alistSet_lookup_self]
            | none => simp [h1, h2, h3]
      · cases h1 : inv.lookup t with
        | some v => simp [h1, alistSet_lookup_ne _ _ _ _ (Ne.symm ht)]
        | none =>
          cases h2 : inv.lookup (pd ++ ":" ++ t) with
          | some v => simp [h1, h2, alistSet_lookup_ne _ _ _ _ (Ne.symm ht)]
          | none =>
            cases h3 : inv.lookup ("std:" ++ t) with
            | some v => simp [h1, h2, h3, alistSet_lookup_ne _ _ _ _ (Ne.symm ht)]
            | none => simp [h1, h2, h3]
    · have ht : t = tt := by
        rcases List.mem_cons.mp h with h4 | h4
        · exact h4.symm
        · exact absurd h4 hmem
      subst ht
      simp only [isphxLoop]
      unfold isphxPriority
      cases h1 : inv.lookup t with
      | some v =>
        simp [h1, isphxLoop_lookup_not_mem inv pd rest _ t hmem,
          alistSet_lookup_self]
      | none =>
        cases h2 : inv.lookup (pd ++ ":" ++ t) with
        | some v =>
          simp [h1, h2, isphxLoop_lookup_not_mem inv pd rest _ t hmem,
            alistSet_lookup_self]
        | none =>
          cases h3 : inv.lookup ("std:" ++ t) with
          | some v =>
            simp [h1, h2, h3, isphxLoop_lookup_not_mem inv pd rest _ t hmem,
              alistSet_lookup_self]
          | none =>
            simp [h1, h2, h3, isphxLoop_lookup_not_mem inv pd rest _ t hmem]

/-- C7. For every target type returned by the role target type query, the
intersphinx result holds the first hit of the priority chain bare key, then
primary domain qualified key, then std qualified key; in particular, when the
inventory holds the bare key, that entry is the one returned, whatever the
qualified keys hold. -/
theorem c7_intersphinx_priority (s : SphinxLanguageServer) (a : SphinxApp)
    (project name domain : String) (inv : List (String × String)) (tt : String)
    (ha : s.app = some a)
    (hinv : a.intersphinx_named_inventory.lookup project = some inv)
    (htt : tt ∈ (get_role_target_types s name domain).2) :
    ∃ s1 targets,
      get_intersphinx_targets s project name domain = .ok (s1, targets) ∧
      targets.lookup tt =
        isphxPriority inv (a.primary_domain.getD "") tt ∧
      (∀ v, inv.lookup tt = some v → targets.lookup tt = some v) := by
  refine ⟨(get_role_target_types s name domain).1,
    isphxLoop inv (a.primary_domain.getD "")
      (get_role_target_types s name domain).2 [],
    by simp [get_intersphinx_targets, ha, hinv], ?_, ?_⟩
  · rw [isphxLoop_lookup_mem _ _ _ _ _ htt]
    cases hp : isphxPriority inv (a.primary_domain.getD "") tt <;>
      simp [hp, List.lookup]
  · intro v hv
    rw [isphxLoop_lookup_mem _ _ _ _ _ htt]
    simp [isphxPriority, hv]

/-- C7, witness: with entries under both the bare and the primary qualified
key, the bare entry is returned. -/
theorem c7_witness :
    ∃ s1 targets,
      get_intersphinx_targets serverC7 "numpy" "func" "" = .ok (s1, targets) ∧
      targets.lookup "function" = some "BARE" := by
  obtain ⟨s1, targets, he, hp, hb⟩ :=
    c7_intersphinx_priority serverC7 appC7 "numpy" "func" ""
      [("function", "BARE"), ("py:function", "PREFIXED")] "function"
      rfl (by decide) (by decide)
  exact ⟨s1, targets, he, hb "BARE" (by decide)⟩

/-- C8. Variable expansion is the identity whenever the anchored pattern does
not match (in particular when the string does not begin with a dollar brace
placeholder), and also when the placeholder name is anything other than
`workspaceRoot`; the pattern is anchored, so a placeholder later in the
string never matches. -/
theorem c8_expand_identity :
    (∀ root s1, matchPathVar s1 = none →
      expand_conf_dir root s1 = PathOrStr.str s1) ∧
    (∀ root s1 g1, matchPathVar s1 = some g1 → g1 ≠ "workspaceRoot" →
      expand_conf_dir root s1 = PathOrStr.str s1) ∧
    (∀ s1 : String, startsWithL "$\x7b".data s1.data = false →
      matchPathVar s1 = none) := by
  refine ⟨?_, ?_, ?_⟩
  · intro root s1 hm
    simp [expand_conf_dir, hm]
  · intro root s1 g1 hm hg
    simp [expand_conf_dir, hm, hg]
  · intro s1 hs
    rcases hd : s1.data with _ | ⟨c1, tl⟩
    · simp [matchPathVar, hd]
    · rcases tl with _ | ⟨c2, rest⟩
      · simp [matchPathVar, hd]
      · have hneg : ¬(c1 = '$' ∧ c2 = '{') := by
          rintro ⟨hc1, hc2⟩
          subst hc1
          subst hc2
          rw [hd] at hs
          simp [startsWithL] at hs
        simp [matchPathVar, hd, hneg]

/-- C8, witness: a plain relative path, an unknown placeholder, and a
placeholder that is not at the start of the string. -/
theorem c8_witness :
    expand_conf_dir "/ws" "docs/source" = PathOrStr.str "docs/source" ∧
    expand_conf_dir "/ws" "${unknownVar}/docs" =
      PathOrStr.str "${unknownVar}/docs" ∧
    matchPathVar "a${workspaceRoot}/x" = none :=
  ⟨c8_expand_identity.1 "/ws" "docs/source" (by decide),
   c8_expand_identity.2.1 "/ws" "${unknownVar}/docs" "unknownVar"
     (by decide) (by decide),
   c8_expand_identity.2.2 "a${workspaceRoot}/x" (by decide)⟩

/-- C9. Saving a conf.py while the application is absent raises
`AttributeError` out of the save handler: `save` passes the whole
`InitializationOptions` object to `find_conf_dir` (where `create_sphinx_app`
correctly passes its `sphinx` namespace), and the first attribute read
`config.conf_dir` fails because that object only has the fields `sphinx` and
`server`. The exception propagates out of `save` before the `or ""` fallback
or the string `/` behind it can run, so the claim that the save handler never
raises is false on this input. -/
theorem c9_save_attribute_error :
    find_conf_dir worldC9 serverC9.workspace_root
      (ConfigArg.initializationOptions serverC9.user_config) =
        .error PyError.attributeError ∧
    save worldC9 [] false serverC9 "file:///ws/docs/conf.py" =
      .error PyError.attributeError :=
  ⟨rfl, rfl⟩

/-- C10. When the server was initialized with `hideSphinxOutput = true` and
no handler is left over, `create_sphinx_app` installs no `sphinx_log`
attribute; a subsequent `build` with the live application then fails with
`AttributeError` on the unconditional `self.sphinx_log` read instead of
completing the build and publish sequence. -/
theorem c10_missing_handler (w : World) (s : SphinxLanguageServer)
    (recs : List LogRecord) (rb : Bool) (cd : PathOrStr)
    (hhide : s.user_config.server.hide_sphinx_output = true)
    (hlog : s.sphinx_log = none)
    (hfind : find_conf_dir w s.workspace_root
      (ConfigArg.sphinxConfig s.user_config.sphinx) = .ok (some cd)) :
    (initialize_sphinx w s).2 = some (w.mkSphinx cd.val) ∧
    build w recs rb
        { (initialize_sphinx w s).1 with app := (initialize_sphinx w s).2 } =
      .error PyError.attributeError := by
  have h1 : initialize_sphinx w s = (s, some (w.mkSphinx cd.val)) := by
    simp [initialize_sphinx, create_sphinx_app, hfind, hhide]
  rw [h1]
  exact ⟨rfl, by simp [build, hlog]⟩

/-- C10, witness at the concrete scenario. -/
theorem c10_witness :
    build worldC10 [] false
        { (initialize_sphinx worldC10 serverC10).1 with
            app := (initialize_sphinx worldC10 serverC10).2 } =
      .error PyError.attributeError :=
  (c10_missing_handler worldC10 serverC10 [] false (PathOrStr.path "/ws/docs")
    rfl rfl rfl).2
